import Mathlib

/-!
Verification development for the GAIA question-answering agent repository.

The development shallowly embeds the algorithmic core of the repository:

* the answer-cleaning pipeline `_clean_answer` of
  `src/cache/agent/basic_agent.py` (identical to the one in
  `src/agent/basic_agent.py` except for the JSON-extraction block),
* `ensure_valid_answer` and the caching `BasicAgent.__call__` of
  `src/cache/agent/basic_agent.py`,
* the regex-dispatch router `BasicAgent.__call__` of `src/app.py` together
  with its five question handlers (reverse sentence, vegetable list,
  non-commutative operation table, Mercedes Sosa album count, Malko
  competition winner).

Python strings are modelled as Lean `String`/`List Char` (ASCII-faithful:
`str.lower`, `str.strip`, `str.isdigit` and friends are modelled on their
ASCII behaviour, which covers every string the program manipulates).
Network and filesystem effects are modelled by explicit environment
records; regular-expression searches are embedded as executable scanning
functions equivalent to the concrete patterns appearing in the source.
-/

/-- Character used for a single quote (apostrophe), code point 39. -/
def aposC : Char := Char.ofNat 39

/-- Character used for a double quote, code point 34. -/
def quoteC : Char := Char.ofNat 34

/-- Python `str.strip()` whitespace predicate (ASCII): space, tab, newline,
carriage return, vertical tab, form feed. -/
def pyIsSpace (c : Char) : Bool :=
  c = ' ' || c = '\t' || c = '\n' || c = '\r' || c = Char.ofNat 11 || c = Char.ofNat 12

/-- ASCII lower-casing of a single character, as done by Python `str.lower()`
and by `re.IGNORECASE` matching on the ASCII patterns of the source. -/
def lowChar (c : Char) : Char :=
  match c with
  | 'A' => 'a' | 'B' => 'b' | 'C' => 'c' | 'D' => 'd' | 'E' => 'e' | 'F' => 'f'
  | 'G' => 'g' | 'H' => 'h' | 'I' => 'i' | 'J' => 'j' | 'K' => 'k' | 'L' => 'l'
  | 'M' => 'm' | 'N' => 'n' | 'O' => 'o' | 'P' => 'p' | 'Q' => 'q' | 'R' => 'r'
  | 'S' => 's' | 'T' => 't' | 'U' => 'u' | 'V' => 'v' | 'W' => 'w' | 'X' => 'x'
  | 'Y' => 'y' | 'Z' => 'z' | c => c

/-- Lower-case every character of a character list. -/
def lowerL (l : List Char) : List Char := l.map lowChar

/-- Python `str.lower()` on a string (ASCII fragment). -/
def lowerStr (s : String) : String := String.mk (lowerL s.data)

/-- Strip characters satisfying `p` from both ends of a character list
(Python `str.strip(chars)`). -/
def stripBy (p : Char → Bool) (l : List Char) : List Char :=
  ((l.dropWhile p).reverse.dropWhile p).reverse

/-- Python `str.strip()` on a character list. -/
def pyStripL (l : List Char) : List Char := stripBy pyIsSpace l

/-- Python `str.strip()` on a string. -/
def pyStripStr (s : String) : String := String.mk (pyStripL s.data)

/-- Does `l` start with the pattern `pat` (character-exact)? -/
def startsWithL : List Char → List Char → Bool
  | [], _ => true
  | _ :: _, [] => false
  | p :: ps, c :: cs => p = c && startsWithL ps cs

/-- Drop the pattern `pat` from the front of `l`, comparing the lower-cased
subject against the (already lower-case) pattern; `none` if `pat` is not a
case-insensitive prefix of `l`. -/
def dropCIPre : List Char → List Char → Option (List Char)
  | [], l => some l
  | _ :: _, [] => none
  | p :: ps, c :: cs => if lowChar c = p then dropCIPre ps cs else none

/-- Index of the first occurrence of `pat` inside `l`, if any. -/
def findSubIdx (pat : List Char) : List Char → Option Nat
  | [] => if startsWithL pat [] then some 0 else none
  | c :: cs =>
    if startsWithL pat (c :: cs) then some 0
    else (findSubIdx pat cs).map (· + 1)

/-- Does `pat` occur inside `l` as a contiguous substring? -/
def containsSubL (pat l : List Char) : Bool := (findSubIdx pat l).isSome

/-- Case-insensitive substring containment of an (already lower-case)
pattern, as performed by `re.search` on a literal pattern with
`re.IGNORECASE`. -/
def containsCI (pat : String) (subject : String) : Bool :=
  containsSubL pat.data (lowerL subject.data)

/-- Split a character list on a separator character, keeping empty pieces
(Python `str.split(sep)`). -/
def splitOnCharL (sep : Char) : List Char → List (List Char)
  | [] => [[]]
  | c :: cs =>
    let r := splitOnCharL sep cs
    if c = sep then [] :: r
    else
      match r with
      | h :: t => (c :: h) :: t
      | [] => [[c]]

/-- Python `str.split()` with no argument: split on whitespace runs and
drop empty pieces. -/
def splitWsL (l : List Char) : List (List Char) :=
  ((splitOnCharL ' ' (l.map fun c => if pyIsSpace c then ' ' else c)).filter
    (fun p => p ≠ [])).map id

/-- Word count of a string under Python `str.split()`. -/
def wordCount (l : List Char) : Nat := (splitWsL l).length

/-- Does the character list contain an ASCII digit (`any(char.isdigit() ...)`)? -/
def hasDigit (l : List Char) : Bool := l.any Char.isDigit

/-- Python `str.isdigit()` on the ASCII fragment: nonempty and all digits. -/
def pyIsDigitStr (s : String) : Bool :=
  s.data ≠ [] && s.data.all Char.isDigit

/-- Numeric value of an all-digit string (Python `int(text)`). -/
def natOfDigits (s : String) : Nat :=
  s.data.foldl (fun n c => n * 10 + (c.toNat - 48)) 0

/-- Join a list of strings with separator `", "` (Python `", ".join(items)`). -/
def joinCommaSpace (items : List String) : String :=
  String.intercalate ", " items

/-- Decidable equality for `Except`, needed to evaluate resolver results. -/
instance {α β} [DecidableEq α] [DecidableEq β] : DecidableEq (Except α β)
  | .ok x, .ok y =>
    if h : x = y then .isTrue (congrArg Except.ok h)
    else .isFalse (fun hh => h (Except.ok.inj hh))
  | .error x, .error y =>
    if h : x = y then .isTrue (congrArg Except.error h)
    else .isFalse (fun hh => h (Except.error.inj hh))
  | .ok _, .error _ => .isFalse (fun hh => Except.noConfusion hh)
  | .error _, .ok _ => .isFalse (fun hh => Except.noConfusion hh)

/-- Backtick character, code point 96. -/
def backtickC : Char := Char.ofNat 96

/-- Opening brace character, code point 123. -/
def lbraceC : Char := Char.ofNat 123

/-- Closing brace character, code point 125. -/
def rbraceC : Char := Char.ofNat 125

/-- Values produced by Python `json.loads`. JSON numbers are kept as their
source token text: the program only ever converts extracted values back to
strings with `str(...)`, and the token text stands in for that rendering
(exact float repr is outside the scope of this embedding). -/
inductive PyJson where
  | jnull : PyJson
  | jbool : Bool → PyJson
  | jnum : String → PyJson
  | jstr : String → PyJson
  | jarr : List PyJson → PyJson
  | jobj : List (String × PyJson) → PyJson

/-- Is this JSON value the string `"FINISH"` (Python `value == "FINISH"`)? -/
def isStrFINISH : PyJson → Bool
  | .jstr s => s = "FINISH"
  | _ => false

/-- JSON insignificant whitespace. -/
def jsonWs (c : Char) : Bool := c = ' ' || c = '\t' || c = '\n' || c = '\r'

/-- Skip JSON whitespace. -/
def jsonSkipWs (l : List Char) : List Char := l.dropWhile jsonWs

/-- Update an association list with Python-dict semantics: a repeated key
replaces the value in place, a new key is appended. -/
def objUpdate (kvs : List (String × PyJson)) (k : String) (v : PyJson) :
    List (String × PyJson) :=
  if kvs.any (fun kv => kv.1 = k) then
    kvs.map (fun kv => if kv.1 = k then (k, v) else kv)
  else kvs ++ [(k, v)]

/-- Hexadecimal digit value. -/
def hexVal (c : Char) : Option Nat :=
  if c.isDigit then some (c.toNat - 48)
  else if 'a' ≤ c ∧ c ≤ 'f' then some (c.toNat - 87)
  else if 'A' ≤ c ∧ c ≤ 'F' then some (c.toNat - 55)
  else none

/-- Parse a JSON string body (after the opening quote): returns the decoded
string and the input after the closing quote. Surrogate pairs in
escapes are not recombined (library abstraction). -/
def jsonStrBody : Nat → List Char → Option (String × List Char)
  | 0, _ => none
  | _ + 1, [] => none
  | fuel + 1, c :: cs =>
    if c = quoteC then some ("", cs)
    else if c = '\\' then
      match cs with
      | [] => none
      | e :: rest =>
        let cont : Char → List Char → Option (String × List Char) := fun ch r =>
          (jsonStrBody fuel r).map (fun p => (String.mk (ch :: p.1.data), p.2))
        if e = quoteC then cont quoteC rest
        else if e = '\\' then cont '\\' rest
        else if e = '/' then cont '/' rest
        else if e = 'b' then cont (Char.ofNat 8) rest
        else if e = 'f' then cont (Char.ofNat 12) rest
        else if e = 'n' then cont '\n' rest
        else if e = 'r' then cont '\r' rest
        else if e = 't' then cont '\t' rest
        else if e = 'u' then
          match rest with
          | h1 :: h2 :: h3 :: h4 :: rest2 =>
            match hexVal h1, hexVal h2, hexVal h3, hexVal h4 with
            | some a, some b, some c2, some d =>
              cont (Char.ofNat (((a * 16 + b) * 16 + c2) * 16 + d)) rest2
            | _, _, _, _ => none
          | _ => none
        else none
    else (jsonStrBody fuel cs).map (fun p => (String.mk (c :: p.1.data), p.2))

/-- Parse the fractional part of a JSON number, if present. -/
def jsonFrac : List Char → Option (List Char × List Char)
  | c :: t =>
    if c = '.' then
      match List.span Char.isDigit t with
      | ([], _) => none
      | (ds, r) => some ('.' :: ds, r)
    else some ([], c :: t)
  | [] => some ([], [])

/-- Parse the exponent part of a JSON number, if present. -/
def jsonExpPart : List Char → Option (List Char × List Char)
  | c :: t =>
    if c = 'e' ∨ c = 'E' then
      let sgnT : List Char × List Char :=
        match t with
        | s :: u => if s = '+' ∨ s = '-' then ([s], u) else ([], t)
        | [] => ([], t)
      match List.span Char.isDigit sgnT.2 with
      | ([], _) => none
      | (ds, r) => some (c :: (sgnT.1 ++ ds), r)
    else some ([], c :: t)
  | [] => some ([], [])

/-- Lex a JSON number token, returning the token text and the rest. -/
def jsonNumTok (l : List Char) : Option (List Char × List Char) :=
  let sgn : List Char × List Char :=
    match l with
    | c :: t => if c = '-' then ([c], t) else ([], l)
    | [] => ([], [])
  match sgn.2 with
  | [] => none
  | c :: cs =>
    if ¬ c.isDigit then none
    else if (c == '0') && (match cs with | d :: _ => d.isDigit | [] => false) then none
    else
      let ipR : List Char × List Char :=
        if c = '0' then ([c], cs) else List.span Char.isDigit sgn.2
      match jsonFrac ipR.2 with
      | none => none
      | some (fp, r2) =>
        match jsonExpPart r2 with
        | none => none
        | some (ep, r3) => some (sgn.1 ++ ipR.1 ++ fp ++ ep, r3)

mutual

/-- Parse one JSON value (fuel-indexed recursive-descent parser for
`json.loads`). -/
def jsonVal : Nat → List Char → Option (PyJson × List Char)
  | 0, _ => none
  | fuel + 1, input =>
    let l := jsonSkipWs input
    match l with
    | [] => none
    | c :: cs =>
      if c = quoteC then
        (jsonStrBody (cs.length + 1) cs).map (fun p => (PyJson.jstr p.1, p.2))
      else if c = lbraceC then
        match jsonSkipWs cs with
        | d :: ds =>
          if d = rbraceC then some (PyJson.jobj [], ds)
          else
            (jsonMembers fuel (jsonSkipWs cs)).map
              (fun p =>
                (PyJson.jobj (p.1.foldl (fun acc kv => objUpdate acc kv.1 kv.2) []), p.2))
        | [] => none
      else if c = '[' then
        match jsonSkipWs cs with
        | d :: ds =>
          if d = ']' then some (PyJson.jarr [], ds)
          else (jsonItems fuel (jsonSkipWs cs)).map (fun p => (PyJson.jarr p.1, p.2))
        | [] => none
      else if startsWithL "true".data l then some (PyJson.jbool true, l.drop 4)
      else if startsWithL "false".data l then some (PyJson.jbool false, l.drop 5)
      else if startsWithL "null".data l then some (PyJson.jnull, l.drop 4)
      else
        match jsonNumTok l with
        | some (tok, r) => some (PyJson.jnum (String.mk tok), r)
        | none => none

/-- Parse the elements of a nonempty JSON array, including the closing
bracket. -/
def jsonItems : Nat → List Char → Option (List PyJson × List Char)
  | 0, _ => none
  | fuel + 1, l =>
    match jsonVal fuel l with
    | none => none
    | some (v, r) =>
      match jsonSkipWs r with
      | d :: r2 =>
        if d = ',' then (jsonItems fuel r2).map (fun p => (v :: p.1, p.2))
        else if d = ']' then some ([v], r2)
        else none
      | [] => none

/-- Parse the members of a nonempty JSON object, including the closing
brace. -/
def jsonMembers : Nat → List Char → Option (List (String × PyJson) × List Char)
  | 0, _ => none
  | fuel + 1, l =>
    match jsonSkipWs l with
    | c :: cs =>
      if c = quoteC then
        match jsonStrBody (cs.length + 1) cs with
        | none => none
        | some (k, r) =>
          match jsonSkipWs r with
          | d :: r2 =>
            if d = ':' then
              match jsonVal fuel r2 with
              | none => none
              | some (v, r3) =>
                match jsonSkipWs r3 with
                | d2 :: r4 =>
                  if d2 = ',' then
                    (jsonMembers fuel r4).map (fun p => ((k, v) :: p.1, p.2))
                  else if d2 = rbraceC then some ([(k, v)], r4)
                  else none
                | [] => none
            else none
          | [] => none
      else none
    | [] => none

end

/-- Python `json.loads`: parse a complete JSON document; fail if anything
but whitespace remains. -/
def pyJsonLoads (s : String) : Option PyJson :=
  match jsonVal (2 * s.data.length + 4) s.data with
  | some (v, r) => if jsonSkipWs r = [] then some v else none
  | none => none

/-- Is a JSON number token numerically zero (Python falsiness of the
parsed number)? -/
def jsonNumIsZero (t : String) : Bool :=
  let body := t.data.filter (fun c => c ≠ '-' ∧ c ≠ '+' ∧ c ≠ '.')
  let mant := body.takeWhile (fun c => c ≠ 'e' ∧ c ≠ 'E')
  mant.all (fun c => c = '0')

/-- Python truthiness of a `json.loads` result. -/
def pyTruthy : PyJson → Bool
  | .jnull => false
  | .jbool b => b
  | .jnum t => !(jsonNumIsZero t)
  | .jstr s => s ≠ ""
  | .jarr xs => !xs.isEmpty
  | .jobj kvs => !kvs.isEmpty

/-- Python `repr` of a JSON-derived value (fuel-indexed; string escaping
inside reprs is not modelled — the program never feeds reprs back into a
parser). -/
def pyReprJ : Nat → PyJson → String
  | 0, _ => ""
  | fuel + 1, j =>
    match j with
    | .jnull => "None"
    | .jbool b => if b then "True" else "False"
    | .jnum t => t
    | .jstr s => String.mk (aposC :: (s.data ++ [aposC]))
    | .jarr xs => "[" ++ String.intercalate ", " (xs.map (pyReprJ fuel)) ++ "]"
    | .jobj kvs =>
      "\x7b" ++
        String.intercalate ", "
          (kvs.map (fun kv =>
            String.mk (aposC :: (kv.1.data ++ [aposC])) ++ ": " ++ pyReprJ fuel kv.2)) ++
        "\x7d"

/-- Python `str(...)` of a JSON-derived value. The fuel bounds the nesting
depth of the value; every caller passes the length of the JSON source text
the value was parsed from, which always suffices. -/
def pyStrJ (fuel : Nat) (j : PyJson) : String :=
  match j with
  | .jstr s => s
  | j => pyReprJ fuel j

/-- Consume the continuation of a digit run in which single underscores may
separate digits (Python numeric-literal syntax accepted by `float`). -/
def digitsURest : Nat → List Char → List Char
  | 0, l => l
  | _ + 1, [] => []
  | fuel + 1, c :: cs =>
    if c.isDigit then digitsURest fuel cs
    else if c = '_' then
      match cs with
      | d :: ds => if d.isDigit then digitsURest fuel ds else c :: cs
      | [] => c :: cs
    else c :: cs

/-- Consume a digit group (with optional single underscores between digits);
`none` if there is no leading digit. -/
def digitsU : List Char → Option (List Char)
  | c :: cs => if c.isDigit then some (digitsURest cs.length cs) else none
  | [] => none

/-- Accept the exponent suffix of a Python float literal; the remaining
input must be consumed entirely. -/
def pyFloatExp : List Char → Bool
  | [] => true
  | c :: t =>
    if c = 'e' ∨ c = 'E' then
      let t2 : List Char :=
        match t with
        | s :: u => if s = '+' ∨ s = '-' then u else t
        | [] => t
      match digitsU t2 with
      | some [] => true
      | _ => false
    else false

/-- Accept the significand (and optional exponent) of a Python float
literal. -/
def pyFloatTail (l : List Char) : Bool :=
  match l with
  | c :: t =>
    if c = '.' then
      match digitsU t with
      | some r => pyFloatExp r
      | none => false
    else
      match digitsU l with
      | some r =>
        match r with
        | d :: t2 =>
          if d = '.' then
            match digitsU t2 with
            | some r2 => pyFloatExp r2
            | none => pyFloatExp t2
          else pyFloatExp r
        | [] => true
      | none => false
  | [] => false

/-- Does Python `float(s)` succeed (ASCII fragment)? -/
def pyFloatOk (s : String) : Bool :=
  let l := pyStripL s.data
  let l2 : List Char :=
    match l with
    | c :: t => if c = '+' ∨ c = '-' then t else l
    | [] => l
  let low := lowerL l2
  if low = "inf".data ∨ low = "infinity".data ∨ low = "nan".data then true
  else pyFloatTail l2

/-- Triple-backtick code-fence marker. -/
def fenceMarker : List Char := [backtickC, backtickC, backtickC]

/-- Join lines with a newline (Python newline `join`). -/
def joinNL : List (List Char) → List Char
  | [] => []
  | [x] => x
  | x :: y :: t => x ++ '\n' :: joinNL (y :: t)

/-- Code-fence removal step of `_clean_answer`: if the answer starts with a
triple backtick, drop every line starting with a triple backtick and
re-strip. -/
def fenceStep (l : List Char) : List Char :=
  if startsWithL fenceMarker l then
    pyStripL (joinNL ((splitOnCharL '\n' l).filter (fun ln => !(startsWithL fenceMarker ln))))
  else l

/-- Quoted JSON key as it appears as a raw substring test in the source
(`'"name"' in answer`). -/
def jQuoted (s : String) : List Char := quoteC :: (s.data ++ [quoteC])

/-- Priority key list of the JSON-extraction block
(`src/cache/agent/basic_agent.py`). -/
def jsonPriorityKeys : List String :=
  ["answer", "arguments", "vegetables", "surname", "value", "result", "submitted_answer"]

/-- Dictionary lookup on a parsed JSON object. -/
def objLookup (kvs : List (String × PyJson)) (k : String) : Option PyJson :=
  (kvs.find? (fun kv => kv.1 = k)).map (·.2)

/-- First loop of the JSON-extraction block: the first priority key whose
value is present, truthy and not `"FINISH"` yields `str(value)`. -/
def jsonBlock1 (fuel : Nat) (kvs : List (String × PyJson)) : Option String :=
  jsonPriorityKeys.findSome? (fun k =>
    match objLookup kvs k with
    | some v => if pyTruthy v ∧ !(isStrFINISH v) then some (pyStrJ fuel v) else none
    | none => none)

/-- Second loop of the JSON-extraction block: if the object still has a
`"name"` field, the first member with a different key and a truthy,
non-`"FINISH"` value yields `str(value)` (overriding the first loop). -/
def jsonBlock2 (fuel : Nat) (kvs : List (String × PyJson)) : Option String :=
  if (objLookup kvs "name").isSome then
    kvs.findSome? (fun kv =>
      if kv.1 ≠ "name" ∧ kv.1 ≠ "FINISH" ∧ pyTruthy kv.2 ∧ !(isStrFINISH kv.2)
      then some (pyStrJ fuel kv.2) else none)
  else none

/-- JSON-extraction step of `_clean_answer`
(`src/cache/agent/basic_agent.py`): attempted only when the answer starts
with a brace and contains `"name"` or `"FINISH"`; every exception (parse
failure, non-dict indexing) leaves the answer unchanged. -/
def jsonStep (aStr : String) : String :=
  let a := aStr.data
  if startsWithL [lbraceC] a ∧
      (containsSubL (jQuoted "name") a ∨ containsSubL (jQuoted "FINISH") a) then
    match pyJsonLoads aStr with
    | some (PyJson.jobj kvs) =>
      let fuel := aStr.data.length + 1
      let a1 := (jsonBlock1 fuel kvs).getD aStr
      (jsonBlock2 fuel kvs).getD a1
    | _ => aStr
  else aStr

/-- Alternatives of the first boilerplate-prefix pattern
`^(the answer is|answer:|final answer:|thus,|therefore,|so,|hence,)\s*`. -/
def p1Alts : List String :=
  ["the answer is", "answer:", "final answer:", "thus,", "therefore,", "so,", "hence,"]

/-- Drop a (possibly empty) whitespace run (`\s*`). -/
def dropWsRun (l : List Char) : List Char := l.dropWhile pyIsSpace

/-- Require at least one whitespace character, then drop the whole run
(`\s+`). -/
def ws1Drop : List Char → Option (List Char)
  | [] => none
  | c :: t => if pyIsSpace c then some (dropWsRun t) else none

/-- Apply the first boilerplate-prefix removal (case-insensitive, anchored
at the start, alternatives tried in order). -/
def stripP1 (l : List Char) : List Char :=
  match p1Alts.findSome? (fun alt => dropCIPre alt.data l) with
  | some r => dropWsRun r
  | none => l

/-- Match an optional token followed by mandatory whitespace
(`(tok\s+)?`): candidate remainders in the greedy preference order of the
regular expression. -/
def optTok (tok : String) (l : List Char) : List (List Char) :=
  match (dropCIPre tok.data l).bind ws1Drop with
  | some r => [r, l]
  | none => [l]

/-- Noun alternatives of the second boilerplate-prefix pattern. -/
def p2Nouns : List String := ["number", "city", "country", "name", "value", "total", "result"]

/-- Verb alternatives of the second boilerplate-prefix pattern. -/
def p2Verbs : List String := ["is", "are", "was", "were"]

/-- Tail of the second pattern: `(number|...)\s+(is|are|was|were)\s*`. -/
def p2Tail (l : List Char) : Option (List Char) :=
  p2Nouns.findSome? (fun n =>
    (dropCIPre n.data l).bind (fun r =>
      (ws1Drop r).bind (fun r2 =>
        p2Verbs.findSome? (fun v => (dropCIPre v.data r2).map dropWsRun))))

/-- Apply the second boilerplate-prefix removal
`^(the\s+)?(correct\s+)?(number|city|country|name|value|total|result)\s+(is|are|was|were)\s*`. -/
def stripP2 (l : List Char) : List Char :=
  match (optTok "the" l).findSome? (fun r1 => (optTok "correct" r1).findSome? p2Tail) with
  | some r => r
  | none => l

/-- Apply the leading-ordinal removal `^\d+\.\s*`. -/
def stripP3 (l : List Char) : List Char :=
  match l with
  | c :: _ =>
    if c.isDigit then
      match l.dropWhile Char.isDigit with
      | d :: t => if d = '.' then dropWsRun t else l
      | [] => l
    else l
  | [] => l

/-- Apply the leading-bullet removal `^[-•]\s*`. -/
def stripP4 (l : List Char) : List Char :=
  match l with
  | c :: t => if c = '-' ∨ c = '•' then dropWsRun t else l
  | [] => l

/-- Boilerplate-prefix removal loop of `_clean_answer`: the four patterns
applied once each, in order, stripping whitespace after each. -/
def prefixSteps (l : List Char) : List Char :=
  pyStripL (stripP4 (pyStripL (stripP3 (pyStripL (stripP2 (pyStripL (stripP1 l)))))))

/-- Sentence-selection heuristic of `_clean_answer`: split on `"."`; if
there are several pieces, the first stripped piece that is shorter than 50
characters and contains a digit or has at most five words becomes the
answer. -/
def sentencePick (l : List Char) : List Char :=
  let sents := splitOnCharL '.' l
  if sents.length > 1 then
    match sents.findSome? (fun s0 =>
      let s := pyStripL s0
      if s.length < 50 ∧ (hasDigit s ∨ wordCount s ≤ 5) then some s else none) with
    | some s => s
    | none => l
  else l

/-- Does `\s*\([^)]*\)\s*$` match the whole suffix `l`? -/
def parenTailMatch (l : List Char) : Bool :=
  match dropWsRun l with
  | c :: t =>
    if c = '(' then
      match t.dropWhile (fun d => d ≠ ')') with
      | d :: t2 => if d = ')' then (dropWsRun t2).isEmpty else false
      | [] => false
    else false
  | [] => false

/-- Leftmost-match scan for the trailing-parenthetical pattern: returns the
prefix before the match, if the pattern matches somewhere. -/
def parenScan : List Char → Option (List Char)
  | [] => none
  | c :: t => if parenTailMatch (c :: t) then some [] else (parenScan t).map (c :: ·)

/-- Trailing-parenthetical removal `re.sub(r"\s*\([^)]*\)\s*$", "", answer)`. -/
def parenStep (l : List Char) : List Char := (parenScan l).getD l

/-- One left-to-right pass of `re.sub(r",\s+", ",", answer)` (fuel-indexed;
the list length is always enough fuel). -/
def commaFixGo : Nat → List Char → List Char
  | 0, l => l
  | _ + 1, [] => []
  | fuel + 1, c :: t =>
    if (c == ',') && (match t with | d :: _ => pyIsSpace d | [] => false) then
      ',' :: commaFixGo fuel (dropWsRun t)
    else c :: commaFixGo fuel t

/-- Replace every comma-plus-whitespace-run by a bare comma. -/
def commaFix (l : List Char) : List Char := commaFixGo l.length l

/-- Condition of the comma-list step: the question contains `"comma"` and
(`"list"` or `"separated"`), case-insensitively. -/
def commaCond (question : String) : Bool :=
  let ql := (lowerStr question).data
  containsSubL "comma".data ql ∧
    (containsSubL "list".data ql ∨ containsSubL "separated".data ql)

/-- Comma-list step of `_clean_answer`. -/
def commaStep (question : String) (l : List Char) : List Char :=
  if commaCond question then commaFix l else l

/-- Symbols removed by the numeric-cleaning step. -/
def numSymbols : List Char := ['$', '€', '£', '¥', '%', ',']

/-- Remove every occurrence of each numeric symbol
(`answer.replace(symbol, "")` in a loop). -/
def removeSyms (l : List Char) : List Char := l.filter (fun c => !(numSymbols.contains c))

/-- Numeric-cleaning step of `_clean_answer`: for a short (at most five
words) answer containing a digit, strip the currency/percent/comma symbols
and adopt the stripped string exactly when Python `float` accepts it. -/
def numberStep (l : List Char) : List Char :=
  if wordCount l ≤ 5 then
    if hasDigit l then
      let cleaned := pyStripL (removeSyms l)
      if pyFloatOk (String.mk cleaned) then cleaned else l
    else l
  else l

/-- Quote characters stripped by the final step (`answer.strip("\x22\x27")`). -/
def isQuoteCh (c : Char) : Bool := c = quoteC || c = aposC

/-- Final quote-stripping step of `_clean_answer`. -/
def quoteStripStep (l : List Char) : List Char := stripBy isQuoteCh l

/-- The full `_clean_answer` pipeline of
`src/cache/agent/basic_agent.py` on character lists. -/
def cleanAnswerL (ans : List Char) (question : String) : List Char :=
  let a := pyStripL ans
  let a := fenceStep a
  let a := (jsonStep (String.mk a)).data
  let a := prefixSteps a
  let a := sentencePick a
  let a := parenStep a
  let a := commaStep question a
  let a := numberStep a
  let a := quoteStripStep a
  a

/-- The answer cleaner `BasicAgent._clean_answer(answer, question)`. -/
def cleanAnswer (answer question : String) : String :=
  String.mk (cleanAnswerL answer.data question)

/-- The `ensure_valid_answer` helper of `src/cache/agent/basic_agent.py`:
substitute a fixed fallback for empty (or all-whitespace) answers,
otherwise return the stripped answer. -/
def ensureValidAnswer (a : String) : String :=
  if pyStripStr a = "" then "Unable to determine answer" else pyStripStr a

/-- Apostrophe as a one-character string, for building literals. -/
def aposS : String := String.mk [aposC]

/-- The grocery-list marker of `VegetableListHandler.answer`, lower-cased. -/
def vegMarker : List Char := "here".data ++ aposC :: "s the list i have so far:".data

/-- Extract the text between the grocery-list marker and the first
case-insensitive `"i need"` (or the end of the question), as the regex
`here's the list I have so far:(.*?)(?:i need|$)` with
`re.IGNORECASE | re.DOTALL` does. -/
def vegItemsSeg (q : String) : Option (List Char) :=
  let lc := lowerL q.data
  match findSubIdx vegMarker lc with
  | none => none
  | some i =>
    let start := i + vegMarker.length
    let restLow := lc.drop start
    let restOrig := q.data.drop start
    match findSubIdx "i need".data restLow with
    | some j => some (restOrig.take j)
    | none => some restOrig

/-- The `_VEGETABLE_MAP` allow-list of `VegetableListHandler`. -/
def vegMap : List (String × String) :=
  [("broccoli", "broccoli"), ("celery", "celery"), ("lettuce", "lettuce"),
   ("sweet potatoes", "sweet potatoes"), ("fresh basil", "fresh basil")]

/-- The `_ALIASES` table of `VegetableListHandler`. -/
def vegAliases : List (String × String) := [("basil", "fresh basil")]

/-- Lookup in a string-to-string association list (Python dict `get`). -/
def alookup (m : List (String × String)) (k : String) : Option String :=
  (m.find? (fun kv => kv.1 = k)).map (·.2)

/-- The values of the vegetable allow-list. -/
def vegAllow : List String := vegMap.map (·.2)

/-- Add an element to a list-backed set (Python `set.add`). -/
def setInsert (s : List String) (x : String) : List String :=
  if x ∈ s then s else x :: s

/-- Lexicographic strict comparison of character lists by code point —
exactly how Python compares strings. -/
def lexLt : List Char → List Char → Bool
  | [], [] => false
  | [], _ :: _ => true
  | _ :: _, [] => false
  | a :: as, b :: bs =>
    if a.toNat < b.toNat then true
    else if b.toNat < a.toNat then false
    else lexLt as bs

/-- Python string `<`. -/
def strLtB (a b : String) : Bool := lexLt a.data b.data

/-- Python string `<=` (total-order complement of `strLtB`). -/
def strLeB (a b : String) : Bool := !(strLtB b a)

/-- Insert into a sorted list, keeping order (the inner step of an
insertion sort realising Python `sorted`). -/
def insertSorted (x : String) : List String → List String
  | [] => [x]
  | y :: ys => if strLeB x y then x :: y :: ys else y :: insertSorted x ys

/-- Ascending sort of a string list — Python `sorted(...)` (on
duplicate-free input the result is the unique ascending enumeration). -/
def sortStrs : List String → List String
  | [] => []
  | x :: xs => insertSorted x (sortStrs xs)

/-- Split the list text on commas, strip each token and drop empties. -/
def vegRawItems (txt : List Char) : List String :=
  ((splitOnCharL ',' txt).map (fun t => String.mk (pyStripL t))).filter (fun s => s ≠ "")

/-- One iteration of the vegetable loop: lower-case the item, apply the
alias table, and keep it only when it is an allow-list member (mapped
through `_VEGETABLE_MAP`). -/
def vegStep (acc : List String) (raw : String) : List String :=
  let n1 := lowerStr raw
  let n2 := (alookup vegAliases n1).getD n1
  match alookup vegMap n2 with
  | some v => setInsert acc v
  | none => acc

/-- Build the vegetable set from the extracted list text. -/
def vegSet (txt : List Char) : List String :=
  (vegRawItems txt).foldl vegStep []

/-- The `VegetableListHandler.answer` resolver; `Except.error` models the
raised `ValueError`. -/
def vegAnswer (q : String) : Except String String :=
  match vegItemsSeg q with
  | none => Except.error "Unable to locate the grocery list in the question."
  | some txt =>
    let veggiesList := sortStrs (vegSet txt)
    if vegSet txt = [] then Except.error "No vegetables identified in the provided list."
    else Except.ok (joinCommaSpace veggiesList)

/-- The element symbols of the `_TABLE` of
`NonCommutativeOperationHandler`, in dict order. -/
def sElems : List String := ["a", "b", "c", "d", "e"]

/-- The fixed 5 by 5 operation table `_TABLE` of
`NonCommutativeOperationHandler`; the default case is unreachable for
arguments drawn from `sElems`. -/
def opTable (x y : String) : String :=
  match x, y with
  | "a", "a" => "a" | "a", "b" => "b" | "a", "c" => "c" | "a", "d" => "b" | "a", "e" => "d"
  | "b", "a" => "b" | "b", "b" => "c" | "b", "c" => "a" | "b", "d" => "e" | "b", "e" => "c"
  | "c", "a" => "c" | "c", "b" => "a" | "c", "c" => "b" | "c", "d" => "b" | "c", "e" => "a"
  | "d", "a" => "b" | "d", "b" => "e" | "d", "c" => "b" | "d", "d" => "e" | "d", "e" => "d"
  | "e", "a" => "d" | "e", "b" => "b" | "e", "c" => "a" | "e", "d" => "d" | "e", "e" => "c"
  | _, _ => ""

/-- The witness set computed by `NonCommutativeOperationHandler.answer`:
both members of every non-commuting pair of distinct elements. -/
def nonCommWitnessSet (t : String → String → String) : List String :=
  sElems.foldl (fun acc x =>
    sElems.foldl (fun acc2 y =>
      if x ≠ y ∧ t x y ≠ t y x then setInsert (setInsert acc2 x) y else acc2) acc) []

/-- The `NonCommutativeOperationHandler.answer` resolver, parameterised by
the operation table (the source fixes it to `opTable`). -/
def nonCommAnswer (t : String → String → String) : Except String String :=
  let ws := nonCommWitnessSet t
  let sortedW := sortStrs ws
  if ws = [] then Except.error "Operation appears commutative; no witnesses found."
  else Except.ok (joinCommaSpace sortedW)

/-- Leftmost match of the regex `(19|20)\d{2}`: the first position holding
`19` or `20` followed by two digits, read as a four-digit number. -/
def extractYearL : List Char → Option Nat
  | a :: b :: d1 :: d2 :: rest =>
    if ((a = '1' ∧ b = '9') ∨ (a = '2' ∧ b = '0')) ∧ d1.isDigit ∧ d2.isDigit then
      some (natOfDigits (String.mk [a, b, d1, d2]))
    else extractYearL (b :: d1 :: d2 :: rest)
  | _ => none

/-- The `_extract_year` helper of `MercedesSosaAlbumHandler` (also the year
search of `MalkoCompetitionHandler._find_target_winner`). -/
def extractYear (s : String) : Option Nat := extractYearL s.data

/-- One parsed HTML table, as a list of named columns (the level at which
`pandas.read_html` hands tables to `_get_album_count`). -/
structure ATable where
  cols : List (String × List String)

/-- Environment of `MercedesSosaAlbumHandler`: the cache-file contents (if
the file exists) and the outcome of the network fetch. -/
structure AlbumEnv where
  cacheText : Option String
  fetched : Except String (List ATable)

/-- Outcome of `_get_album_count`, with effect tracking: the returned count
or raised error, whether the network was consulted, and a written cache
value, if any. -/
structure AlbumOutcome where
  result : Except String Nat
  usedNetwork : Bool
  cacheWrite : Option String
deriving DecidableEq

/-- The `_read_cache` helper: the cached value when the file exists and its
stripped text `isdigit()`. -/
def albumReadCache (env : AlbumEnv) : Option Nat :=
  match env.cacheText with
  | none => none
  | some t => if pyIsDigitStr (pyStripStr t) then some (natOfDigits (pyStripStr t)) else none

/-- Per-table counting of `_get_album_count`: find a `year` column
(case-insensitive, stripped), extract years, skip the table when no year
parses, else count years within the inclusive range. -/
def albumTableCount (tb : ATable) (startY endY : Nat) : Option Nat :=
  let colsLower := tb.cols.map (fun kv => pyStripStr (lowerStr kv.1))
  match colsLower.findIdx? (fun s => s = "year") with
  | none => none
  | some i =>
    match tb.cols.get? i with
    | none => none
    | some kv =>
      let years := kv.2.map extractYear
      if (years.filter Option.isSome).length = 0 then none
      else some ((years.filterMap id).countP (fun y => decide (startY ≤ y ∧ y ≤ endY)))

/-- The `_get_album_count` method of `MercedesSosaAlbumHandler`: cache
first; otherwise fetch, take the maximum count over usable tables, raise if
none is usable, else write the cache and return. -/
def albumGetCount (env : AlbumEnv) (startY endY : Nat) : AlbumOutcome :=
  match albumReadCache env with
  | some n => ⟨Except.ok n, false, none⟩
  | none =>
    match env.fetched with
    | Except.error e => ⟨Except.error e, true, none⟩
    | Except.ok tables =>
      let best := tables.foldl (fun acc tb =>
        match albumTableCount tb startY endY with
        | none => acc
        | some c => some (max (acc.getD 0) c)) (none : Option Nat)
      match best with
      | none => ⟨Except.error "Unable to parse Mercedes Sosa studio album data.", true, none⟩
      | some b => ⟨Except.ok b, true, some (toString b)⟩

/-- The `MercedesSosaAlbumHandler.answer` resolver: `str(count)` for the
fixed year range `(2000, 2009)`. -/
def albumAnswer (env : AlbumEnv) : Except String String :=
  match (albumGetCount env 2000 2009).result with
  | Except.ok n => Except.ok (toString n)
  | Except.error e => Except.error e

/-- A scraped winner record: the header-to-cell mapping built by
`_scrape_live_winners`. -/
abbrev MRec := List (String × String)

/-- Environment of `MalkoCompetitionHandler`: `cacheParse` is `none` when
the cache file does not exist, `some none` when it exists but
`json.loads` fails, and `some (some recs)` when it parses; `scraped` is
the result of `_scrape_live_winners` (empty on fetch failure). -/
structure MalkoEnv where
  cacheParse : Option (Option (List MRec))
  scraped : List MRec

/-- The `_FALLBACK_WINNERS` constant of `MalkoCompetitionHandler`. -/
def malkoFallback : List MRec :=
  [[("year", "1980"), ("winner", "Claus Peter Flor"), ("country", "West Germany")],
   [("year", "1983"), ("winner", "Gotthard Lienicke"), ("country", "East Germany")],
   [("year", "1989"), ("winner", "Maximiano Valdes"), ("country", "Brazil")]]

/-- Python dict `get` on a record. -/
def mrGet (r : MRec) (k : String) : Option String :=
  (r.find? (fun kv => kv.1 = k)).map (·.2)

/-- Python `a or b or ""` over optional strings: the first present,
non-empty value, else the empty string. -/
def firstTruthyStr : List (Option String) → String
  | [] => ""
  | x :: rest =>
    match x with
    | some s => if s = "" then firstTruthyStr rest else s
    | none => firstTruthyStr rest

/-- The fixed defunct-country set of `_is_country_defunct`. -/
def defunctCountries : List String :=
  ["ussr", "soviet union", "yugoslavia", "czechoslovakia", "east germany",
   "west germany", "serbia and montenegro", "burma", "zaire"]

/-- The `_is_country_defunct` check: case-insensitive substring containment
against the fixed set. -/
def isCountryDefunct (country : String) : Bool :=
  defunctCountries.any (fun n => containsSubL n.data (lowerStr country).data)

/-- The record returned by `_find_target_winner`. -/
structure MalkoTarget where
  firstName : String
  fullName : String
  country : String
deriving DecidableEq

/-- Qualification test and target construction for one winner record, as in
the body of the `_find_target_winner` loop; the unreachable empty-split
case (Python would raise `IndexError`) returns `none`. -/
def malkoRecTarget (w : MRec) (startY endY : Nat) : Option MalkoTarget :=
  let yearValue := firstTruthyStr [mrGet w "year", mrGet w "years"]
  let countryValue :=
    firstTruthyStr [mrGet w "country", mrGet w "nationality", mrGet w "nationality/orchestra"]
  if yearValue = "" ∨ countryValue = "" then none
  else
    match extractYear yearValue with
    | none => none
    | some year =>
      if year < startY ∨ year > endY then none
      else if !(isCountryDefunct countryValue) then none
      else
        let fullName := pyStripStr (firstTruthyStr [mrGet w "winner", mrGet w "name", mrGet w "conductor"])
        if fullName = "" then none
        else
          match splitWsL fullName.data with
          | [] => none
          | w0 :: _ => some ⟨String.mk w0, fullName, countryValue⟩

/-- The `_find_target_winner` scan: first qualifying record in document
order. -/
def malkoFindTarget (winners : List MRec) (startY endY : Nat) : Option MalkoTarget :=
  winners.findSome? (fun w => malkoRecTarget w startY endY)

/-- The `_load_winners` method: parsed cache if available, else the scrape
result, else the built-in fallback list. -/
def malkoLoadWinners (env : MalkoEnv) : List MRec :=
  match env.cacheParse with
  | some (some recs) => recs
  | _ => if env.scraped ≠ [] then env.scraped else malkoFallback

/-- The `MalkoCompetitionHandler.answer` resolver for the fixed year range
`(1978, 2000)`. -/
def malkoAnswer (env : MalkoEnv) : Except String String :=
  match malkoFindTarget (malkoLoadWinners env) 1978 2000 with
  | some t => Except.ok t.firstName
  | none => Except.error "Could not identify the requested Malko Competition winner."

/-- Scan for the pattern `\\.rewsna` (`re.IGNORECASE`): a literal
backslash, one character other than a newline, then `rewsna`. -/
def revScan : List Char → Bool
  | bs :: c :: rest =>
    if bs = '\\' ∧ c ≠ '\n' ∧ startsWithL "rewsna".data (lowerL rest) then true
    else revScan (c :: rest)
  | _ => false

/-- The `ReverseSentenceHandler` matcher. -/
def reverseMatches (q : String) : Bool := revScan q.data

/-- The `VegetableListHandler` matcher. -/
def vegMatches (q : String) : Bool := containsCI "list of just the vegetables" q

/-- The `NonCommutativeOperationHandler` matcher (pattern
`table defining \* on the set S = {a, b, c, d, e}`, case-insensitive). -/
def tableMatches (q : String) : Bool :=
  containsCI "table defining * on the set s = \x7ba, b, c, d, e\x7d" q

/-- Search for `p1` then (anywhere later, across newlines) `p2`, as the
regex `p1.*p2` with `re.IGNORECASE | re.DOTALL` does; both patterns are
given lower-case. -/
def seqMatchCI (p1 p2 : String) (q : String) : Bool :=
  let lc := lowerL q.data
  match findSubIdx p1.data lc with
  | none => false
  | some i => containsSubL p2.data (lc.drop (i + p1.data.length))

/-- The `MercedesSosaAlbumHandler` matcher. -/
def albumMatches (q : String) : Bool := seqMatchCI "mercedes sosa" "studio albums" q

/-- The `MalkoCompetitionHandler` matcher. -/
def malkoMatches (q : String) : Bool :=
  seqMatchCI "malko competition" "country that no longer exists" q

/-- A question handler: the `QuestionHandler` protocol of `src/app.py`
(`matchesQ` embeds the `matches` method). `Except.error` models a raised
exception. -/
structure Handler where
  matchesQ : String → Bool
  answer : String → Except String String

/-- The dispatch loop of `BasicAgent.__call__` in `src/app.py`: first
matching handler answers; no match yields the literal `"UNHANDLED"`. -/
def dispatch : List Handler → String → Except String String
  | [], _ => Except.ok "UNHANDLED"
  | h :: rest, q => if h.matchesQ q then h.answer q else dispatch rest q

/-- The fixed ordered handler list built by `BasicAgent.__init__` in
`src/app.py`, parameterised by the two resolver environments. -/
def basicHandlers (aenv : AlbumEnv) (menv : MalkoEnv) : List Handler :=
  [⟨reverseMatches, fun _ => Except.ok "right"⟩,
   ⟨vegMatches, vegAnswer⟩,
   ⟨tableMatches, fun _ => nonCommAnswer opTable⟩,
   ⟨albumMatches, fun _ => albumAnswer aenv⟩,
   ⟨malkoMatches, fun _ => malkoAnswer menv⟩]

/-- The `BasicAgent.__call__` of `src/app.py` (no exception handling of its
own: a resolver error propagates as `Except.error`). -/
def appAgentCall (aenv : AlbumEnv) (menv : MalkoEnv) (q : String) : Except String String :=
  dispatch (basicHandlers aenv menv) q

/-- The per-question boundary of `run_and_submit_all`: a raised exception
is logged as `"AGENT ERROR: <detail>"`. -/
def runOneApp (aenv : AlbumEnv) (menv : MalkoEnv) (q : String) : String :=
  match appAgentCall aenv menv q with
  | Except.ok s => s
  | Except.error e => "AGENT ERROR: " ++ e

/-- Result of one call of the caching `BasicAgent.__call__`
(`src/cache/agent/basic_agent.py`), with effect tracking: the returned
answer, the answer cache afterwards, whether the LLM graph was invoked,
and whether the cache was saved to disk. -/
structure CacheCallResult where
  answer : String
  cache : List (String × String)
  ranGraph : Bool
  savedCache : Bool
deriving DecidableEq

/-- Lookup in the in-process answer cache (`question in self.answer_cache`). -/
def cacheLookup (c : List (String × String)) (q : String) : Option String :=
  (c.find? (fun kv => kv.1 = q)).map (·.2)

/-- Store into the answer cache with Python-dict semantics. -/
def cacheStore (c : List (String × String)) (q a : String) : List (String × String) :=
  if (c.find? (fun kv => kv.1 = q)).isSome then
    c.map (fun kv => if kv.1 = q then (q, a) else kv)
  else c ++ [(q, a)]

/-- The caching `BasicAgent.__call__`: cached answers are returned verbatim
without running the graph; otherwise the abstracted graph result
(`Except.error` = raised exception, `Except.ok none` = no `AIMessage`,
`Except.ok (some raw)` = final message content) is cleaned, validated,
cached and returned. -/
def cacheAgentCall (c : List (String × String)) (useCache : Bool)
    (graphRes : Except String (Option String)) (q : String) : CacheCallResult :=
  if useCache ∧ (cacheLookup c q).isSome then
    ⟨(cacheLookup c q).getD "", c, false, false⟩
  else
    match graphRes with
    | Except.error e => ⟨ensureValidAnswer ("Agent failed with error: " ++ e), c, true, false⟩
    | Except.ok none => ⟨ensureValidAnswer "", c, true, false⟩
    | Except.ok (some raw) =>
      let validated := ensureValidAnswer (cleanAnswer raw q)
      if useCache then ⟨validated, cacheStore c q validated, true, true⟩
      else ⟨validated, c, true, false⟩

/-- All characters of the list are ASCII alphanumeric. -/
def AllAlnum (l : List Char) : Prop := ∀ c ∈ l, c.isAlphanum = true

/-- Adversarial question matching both the vegetable-list pattern and the
operation-table pattern. -/
def qRouterAdv : String :=
  "Give a list of just the vegetables using the table defining * on the set " ++
    "S = \x7ba, b, c, d, e\x7d"

theorem charToNat_inj {a b : Char} (h : a.toNat = b.toNat) : a = b :=
  Char.eq_of_val_eq (UInt32.ext h)

theorem lexLt_irrefl : ∀ l : List Char, lexLt l l = false
  | [] => rfl
  | c :: cs => by simp [lexLt, lexLt_irrefl cs]

theorem lexLt_trans :
    ∀ a b c : List Char, lexLt a b = true → lexLt b c = true → lexLt a c = true := by
  intro a
  induction a with
  | nil =>
    intro b c hab hbc
    cases b with
    | nil => simp [lexLt] at hab
    | cons y ys =>
      cases c with
      | nil => simp [lexLt] at hbc
      | cons z zs => simp [lexLt]
  | cons x xs ih =>
    intro b c hab hbc
    cases b with
    | nil => simp [lexLt] at hab
    | cons y ys =>
      cases c with
      | nil => simp [lexLt] at hbc
      | cons z zs =>
        simp only [lexLt] at hab hbc ⊢
        by_cases h1 : x.toNat < y.toNat
        · by_cases h2 : y.toNat < z.toNat
          · have h3 : x.toNat < z.toNat := Nat.lt_trans h1 h2
            simp [h3]
          · by_cases h3 : z.toNat < y.toNat
            · simp [h2, h3] at hbc
            · have h4 : x.toNat < z.toNat := by omega
              simp [h4]
        · by_cases h4 : y.toNat < x.toNat
          · simp [h1, h4] at hab
          · by_cases h2 : y.toNat < z.toNat
            · have h5 : x.toNat < z.toNat := by omega
              simp [h5]
            · by_cases h3 : z.toNat < y.toNat
              · simp [h2, h3] at hbc
              · have hxz1 : ¬ x.toNat < z.toNat := by omega
                have hxz2 : ¬ z.toNat < x.toNat := by omega
                simp only [h1, h4, if_neg, if_false] at hab
                simp only [h2, h3, if_neg, if_false] at hbc
                simp only [hxz1, hxz2, if_neg, if_false]
                exact ih ys zs hab hbc

theorem lexLt_eq_of_both_false :
    ∀ a b : List Char, lexLt a b = false → lexLt b a = false → a = b := by
  intro a
  induction a with
  | nil =>
    intro b hab _
    cases b with
    | nil => rfl
    | cons y ys => simp [lexLt] at hab
  | cons x xs ih =>
    intro b hab hba
    cases b with
    | nil => simp [lexLt] at hba
    | cons y ys =>
      simp only [lexLt] at hab hba
      by_cases h1 : x.toNat < y.toNat
      · simp [h1] at hab
      · by_cases h2 : y.toNat < x.toNat
        · simp [h1, h2] at hba
        · simp only [h1, h2, if_neg, if_false] at hab hba
          have hx : x = y := charToNat_inj (by omega)
          rw [hx, ih ys hab hba]

theorem strLeB_of_not {a b : String} (h : strLeB a b = false) : strLeB b a = true := by
  have h2 : lexLt b.data a.data = true := by simpa [strLeB, strLtB] using h
  have hgoal : lexLt a.data b.data = false := by
    cases hab : lexLt a.data b.data with
    | false => rfl
    | true =>
      have h3 := lexLt_trans _ _ _ hab h2
      rw [lexLt_irrefl] at h3
      exact Bool.noConfusion h3
  simpa [strLeB, strLtB] using hgoal

theorem strLeB_trans {a b c : String} (h1 : strLeB a b = true) (h2 : strLeB b c = true) :
    strLeB a c = true := by
  have h1L : lexLt b.data a.data = false := by simpa [strLeB, strLtB] using h1
  have h2L : lexLt c.data b.data = false := by simpa [strLeB, strLtB] using h2
  have hgoal : lexLt c.data a.data = false := by
    cases hca : lexLt c.data a.data with
    | false => rfl
    | true =>
      exfalso
      cases hbc : lexLt b.data c.data with
      | true =>
        have h3 := lexLt_trans _ _ _ hbc hca
        rw [h3] at h1L
        exact Bool.noConfusion h1L
      | false =>
        have hbceq : b.data = c.data := lexLt_eq_of_both_false _ _ hbc h2L
        rw [← hbceq] at hca
        rw [hca] at h1L
        exact Bool.noConfusion h1L
  simpa [strLeB, strLtB] using hgoal

theorem strLtB_of_le_ne {a b : String} (h1 : strLeB a b = true) (h2 : a ≠ b) :
    strLtB a b = true := by
  have h1L : lexLt b.data a.data = false := by simpa [strLeB, strLtB] using h1
  simp only [strLtB]
  cases hab : lexLt a.data b.data with
  | true => rfl
  | false =>
    exfalso
    exact h2 (congrArg String.mk (lexLt_eq_of_both_false _ _ hab h1L))

theorem mem_insertSorted {x a : String} : ∀ {l : List String},
    a ∈ insertSorted x l ↔ a = x ∨ a ∈ l := by
  intro l
  induction l with
  | nil => simp [insertSorted]
  | cons y ys ih =>
    simp only [insertSorted]
    split
    · simp [List.mem_cons]
    · simp only [List.mem_cons, ih]
      tauto

theorem pairwise_insertSorted {x : String} : ∀ {l : List String},
    l.Pairwise (fun a b => strLeB a b = true) →
    (insertSorted x l).Pairwise (fun a b => strLeB a b = true) := by
  intro l
  induction l with
  | nil => simp [insertSorted]
  | cons y ys ih =>
    intro h
    rcases List.pairwise_cons.mp h with ⟨hy, hys⟩
    simp only [insertSorted]
    split
    · rename_i hxy
      refine List.pairwise_cons.mpr ⟨?_, h⟩
      intro b hb
      rcases List.mem_cons.mp hb with rfl | hb
      · exact hxy
      · exact strLeB_trans hxy (hy b hb)
    · rename_i hxy
      refine List.pairwise_cons.mpr ⟨?_, ih hys⟩
      intro b hb
      rcases mem_insertSorted.mp hb with rfl | hb
      · exact strLeB_of_not (by simpa using hxy)
      · exact hy b hb

theorem nodup_insertSorted {x : String} : ∀ {l : List String},
    x ∉ l → l.Nodup → (insertSorted x l).Nodup := by
  intro l
  induction l with
  | nil => simp [insertSorted]
  | cons y ys ih =>
    intro hx hnd
    rcases List.nodup_cons.mp hnd with ⟨hy, hys⟩
    simp only [insertSorted]
    split
    · exact List.nodup_cons.mpr ⟨hx, hnd⟩
    · refine List.nodup_cons.mpr ⟨?_, ih (fun hc => hx (List.mem_cons_of_mem _ hc)) hys⟩
      intro hc
      rcases mem_insertSorted.mp hc with rfl | hc
      · exact hx (List.mem_cons_self _ _)
      · exact hy hc

theorem mem_sortStrs {a : String} : ∀ {l : List String}, a ∈ sortStrs l ↔ a ∈ l := by
  intro l
  induction l with
  | nil => simp [sortStrs]
  | cons x xs ih => simp [sortStrs, mem_insertSorted, ih]

theorem pairwise_le_sortStrs : ∀ (l : List String),
    (sortStrs l).Pairwise (fun a b => strLeB a b = true)
  | [] => by simp [sortStrs]
  | x :: xs => by
    simp only [sortStrs]
    exact pairwise_insertSorted (pairwise_le_sortStrs xs)

theorem nodup_sortStrs : ∀ {l : List String}, l.Nodup → (sortStrs l).Nodup := by
  intro l
  induction l with
  | nil => simp [sortStrs]
  | cons x xs ih =>
    intro h
    rcases List.nodup_cons.mp h with ⟨hx, hxs⟩
    exact nodup_insertSorted (fun hc => hx (mem_sortStrs.mp hc)) (ih hxs)

theorem pairwise_lt_sortStrs {l : List String} (hnd : l.Nodup) :
    (sortStrs l).Pairwise (fun a b => strLtB a b = true) := by
  have h1 := pairwise_le_sortStrs l
  have h2 : (sortStrs l).Pairwise (fun a b => a ≠ b) := nodup_sortStrs hnd
  exact List.Pairwise.imp₂ (fun a b hle hne => strLtB_of_le_ne hle hne) h1 h2

theorem mem_setInsert {a x : String} {s : List String} :
    a ∈ setInsert s x ↔ a = x ∨ a ∈ s := by
  unfold setInsert
  split
  · rename_i hx
    constructor
    · exact Or.inr
    · rintro (rfl | h) <;> [exact hx; exact h]
  · simp [List.mem_cons]

theorem nodup_setInsert {x : String} {s : List String} (h : s.Nodup) :
    (setInsert s x).Nodup := by
  unfold setInsert
  split
  · exact h
  · rename_i hx
    exact List.nodup_cons.mpr ⟨hx, h⟩

theorem dispatch_of_no_match : ∀ (hs : List Handler) (q : String),
    (∀ h ∈ hs, h.matchesQ q = false) → dispatch hs q = Except.ok "UNHANDLED" := by
  intro hs q hnone
  induction hs with
  | nil => rfl
  | cons h rest ih =>
    simp only [dispatch]
    rw [hnone h (List.mem_cons_self h rest)]
    simp only [Bool.false_eq_true, if_false]
    exact ih (fun h2 hh => hnone h2 (List.mem_cons_of_mem h hh))

theorem dispatch_first_match : ∀ (hs : List Handler) (q : String) (i : Nat) (hi : i < hs.length),
    (hs.get ⟨i, hi⟩).matchesQ q = true →
    (∀ (j : Nat) (hj : j < i), (hs.get ⟨j, Nat.lt_trans hj hi⟩).matchesQ q = false) →
    dispatch hs q = (hs.get ⟨i, hi⟩).answer q := by
  intro hs
  induction hs with
  | nil => intro q i hi; cases hi
  | cons h rest ih =>
    intro q i hi hmatch hbefore
    cases i with
    | zero =>
      simp only [List.get] at hmatch ⊢
      simp only [dispatch, hmatch, if_true]
    | succ i2 =>
      have h0 : h.matchesQ q = false := hbefore 0 (Nat.succ_pos i2)
      simp only [dispatch, h0, Bool.false_eq_true, if_false]
      simp only [List.get] at hmatch ⊢
      exact ih q i2 (Nat.lt_of_succ_lt_succ hi) hmatch
        (fun j hj => hbefore (j + 1) (Nat.succ_lt_succ hj))

theorem find?_append_fresh {c : List (String × String)} {q a : String}
    (h : c.find? (fun kv => kv.1 = q) = none) :
    (c ++ [(q, a)]).find? (fun kv => kv.1 = q) = some (q, a) := by
  induction c with
  | nil => simp [List.find?]
  | cons kv t ih =>
    by_cases hc : kv.1 = q
    · rw [List.find?_cons_of_pos t (by simp [hc])] at h
      cases h
    · rw [List.find?_cons_of_neg t (by simp [hc])] at h
      rw [List.cons_append, List.find?_cons_of_neg _ (by simp [hc])]
      exact ih h

theorem cacheLookup_store_fresh {c : List (String × String)} {q a : String}
    (h : cacheLookup c q = none) : cacheLookup (cacheStore c q a) q = some a := by
  have hfind : c.find? (fun kv => kv.1 = q) = none := by
    unfold cacheLookup at h
    exact Option.map_eq_none'.mp h
  unfold cacheStore
  rw [hfind]
  simp only [Option.isSome_none, Bool.false_eq_true, if_false]
  unfold cacheLookup
  rw [find?_append_fresh hfind]
  rfl

theorem lowChar_isAlphanum (c : Char) : (lowChar c).isAlphanum = c.isAlphanum := by
  unfold lowChar
  split <;> rfl

theorem alnum_no_space {c : Char} (h : c.isAlphanum = true) : pyIsSpace c = false := by
  cases hsp : pyIsSpace c with
  | false => rfl
  | true =>
    exfalso
    simp only [pyIsSpace, Bool.or_eq_true, decide_eq_true_eq] at hsp
    rcases hsp with ((((h1 | h1) | h1) | h1) | h1) | h1 <;> subst h1 <;>
      exact absurd h (by decide)

theorem dropWhile_eq_self_of_false {p : Char → Bool} {l : List Char}
    (h : ∀ c ∈ l, p c = false) : l.dropWhile p = l := by
  cases l with
  | nil => rfl
  | cons c cs =>
    rw [List.dropWhile_cons, h c (List.mem_cons_self _ _)]
    simp

theorem stripBy_eq_self {p : Char → Bool} {l : List Char}
    (h : ∀ c ∈ l, p c = false) : stripBy p l = l := by
  unfold stripBy
  rw [dropWhile_eq_self_of_false h]
  rw [dropWhile_eq_self_of_false (fun c hc => h c (by simpa using hc))]
  exact List.reverse_reverse l

theorem pyStripL_id {l : List Char} (h : AllAlnum l) : pyStripL l = l :=
  stripBy_eq_self (fun c hc => alnum_no_space (h c hc))

theorem startsWithL_false_head {p : Char} {ps l : List Char}
    (h : AllAlnum l) (hp : p.isAlphanum = false) : startsWithL (p :: ps) l = false := by
  cases l with
  | nil => rfl
  | cons c cs =>
    by_cases hpc : p = c
    · exfalso
      rw [hpc, h c (List.mem_cons_self _ _)] at hp
      exact Bool.noConfusion hp
    · simp [startsWithL, hpc]

theorem fenceStep_id {l : List Char} (h : AllAlnum l) : fenceStep l = l := by
  have hsw : startsWithL (backtickC :: [backtickC, backtickC]) l = false :=
    startsWithL_false_head h (by decide)
  unfold fenceStep fenceMarker
  rw [hsw]
  simp

theorem jsonStepData_id {l : List Char} (h : AllAlnum l) :
    (jsonStep (String.mk l)).data = l := by
  have hsw : startsWithL (lbraceC :: []) l = false :=
    startsWithL_false_head h (by decide)
  simp only [jsonStep]
  simp [hsw]

theorem dropCIPre_none_of_nonalnum : ∀ (pat l : List Char), AllAlnum l →
    (∃ p ∈ pat, p.isAlphanum = false) → dropCIPre pat l = none := by
  intro pat
  induction pat with
  | nil =>
    intro l _ hp
    rcases hp with ⟨p, hpm, _⟩
    cases hpm
  | cons p ps ih =>
    intro l h hp
    cases l with
    | nil => rfl
    | cons c cs =>
      simp only [dropCIPre]
      by_cases hpc : lowChar c = p
      · rw [if_pos hpc]
        rcases hp with ⟨p2, hp2m, hp2⟩
        rcases List.mem_cons.mp hp2m with rfl | hp2m
        · exfalso
          rw [← hpc, lowChar_isAlphanum, h c (List.mem_cons_self _ _)] at hp2
          exact Bool.noConfusion hp2
        · exact ih cs (fun d hd => h d (List.mem_cons_of_mem _ hd)) ⟨p2, hp2m, hp2⟩
      · rw [if_neg hpc]

theorem stripP1_id {l : List Char} (h : AllAlnum l) : stripP1 l = l := by
  unfold stripP1
  have hall : p1Alts.findSome? (fun alt => dropCIPre alt.data l) = none := by
    apply List.findSome?_eq_none_iff.mpr
    intro alt halt
    apply dropCIPre_none_of_nonalnum _ _ h
    fin_cases halt <;> decide
  rw [hall]

theorem ws1Drop_none {l : List Char} (h : AllAlnum l) : ws1Drop l = none := by
  cases l with
  | nil => rfl
  | cons c cs =>
    simp only [ws1Drop]
    rw [alnum_no_space (h c (List.mem_cons_self _ _))]
    simp

theorem dropCIPre_all : ∀ (pat l r : List Char), dropCIPre pat l = some r →
    AllAlnum l → AllAlnum r := by
  intro pat
  induction pat with
  | nil =>
    intro l r hd h
    cases hd
    exact h
  | cons p ps ih =>
    intro l r hd h
    cases l with
    | nil => cases hd
    | cons c cs =>
      simp only [dropCIPre] at hd
      split at hd
      · exact ih cs r hd (fun d hdm => h d (List.mem_cons_of_mem _ hdm))
      · cases hd

theorem optTok_id {tok : String} {l : List Char} (h : AllAlnum l) : optTok tok l = [l] := by
  unfold optTok
  cases hdp : dropCIPre tok.data l with
  | none => simp [hdp]
  | some r =>
    have hr : AllAlnum r := dropCIPre_all _ _ _ hdp h
    simp [hdp, ws1Drop_none hr]

theorem p2Tail_none {l : List Char} (h : AllAlnum l) : p2Tail l = none := by
  unfold p2Tail
  apply List.findSome?_eq_none_iff.mpr
  intro n _
  cases hdp : dropCIPre n.data l with
  | none => simp [hdp]
  | some r =>
    have hr : AllAlnum r := dropCIPre_all _ _ _ hdp h
    simp [hdp, ws1Drop_none hr]

theorem stripP2_id {l : List Char} (h : AllAlnum l) : stripP2 l = l := by
  unfold stripP2
  rw [optTok_id h]
  have hcorrect : (optTok "correct" l).findSome? p2Tail = none := by
    rw [optTok_id h]
    simp [List.findSome?_cons, p2Tail_none h]
  simp [List.findSome?_cons, hcorrect]

theorem stripP3_id {l : List Char} (h : AllAlnum l) : stripP3 l = l := by
  cases l with
  | nil => rfl
  | cons c cs =>
    simp only [stripP3]
    by_cases hd : c.isDigit
    · rw [if_pos hd]
      cases hdr : (c :: cs).dropWhile Char.isDigit with
      | nil => rfl
      | cons d t =>
        have hdm : d ∈ (c :: cs) :=
          (List.dropWhile_sublist _).mem (hdr ▸ List.mem_cons_self d t)
        have hdn : ¬ d = '.' := fun hh => by
          rw [hh] at hdm
          exact absurd (h '.' hdm) (by decide)
        dsimp only
        rw [if_neg hdn]
    · rw [if_neg hd]

theorem stripP4_id {l : List Char} (h : AllAlnum l) : stripP4 l = l := by
  cases l with
  | nil => rfl
  | cons c cs =>
    simp only [stripP4]
    have h1 : ¬ (c = '-' ∨ c = '•') := by
      rintro (rfl | rfl)
      · exact absurd (h '-' (List.mem_cons_self _ _)) (by decide)
      · exact absurd (h '•' (List.mem_cons_self _ _)) (by decide)
    rw [if_neg h1]

theorem prefixSteps_id {l : List Char} (h : AllAlnum l) : prefixSteps l = l := by
  unfold prefixSteps
  rw [stripP1_id h, pyStripL_id h, stripP2_id h, pyStripL_id h, stripP3_id h,
    pyStripL_id h, stripP4_id h, pyStripL_id h]

theorem splitOnCharL_single {sep : Char} : ∀ {l : List Char}, (∀ c ∈ l, c ≠ sep) →
    splitOnCharL sep l = [l] := by
  intro l
  induction l with
  | nil => intro _; rfl
  | cons c cs ih =>
    intro h
    simp only [splitOnCharL]
    rw [ih (fun d hd => h d (List.mem_cons_of_mem _ hd))]
    rw [if_neg (h c (List.mem_cons_self _ _))]

theorem sentencePick_id {l : List Char} (h : AllAlnum l) : sentencePick l = l := by
  unfold sentencePick
  have hdot : ∀ c ∈ l, c ≠ '.' := fun c hc hh => by
    subst hh
    exact absurd (h _ hc) (by decide)
  rw [splitOnCharL_single hdot]
  simp

theorem parenTailMatch_false {l : List Char} (h : AllAlnum l) : parenTailMatch l = false := by
  have hdw : dropWsRun l = l :=
    dropWhile_eq_self_of_false (fun c hc => alnum_no_space (h c hc))
  unfold parenTailMatch
  rw [hdw]
  cases l with
  | nil => rfl
  | cons c cs =>
    have h1 : ¬ c = '(' := fun hh => by
      subst hh
      exact absurd (h _ (List.mem_cons_self _ _)) (by decide)
    dsimp only
    rw [if_neg h1]

theorem parenScan_none {l : List Char} (h : AllAlnum l) : parenScan l = none := by
  induction l with
  | nil => rfl
  | cons c cs ih =>
    simp only [parenScan]
    rw [parenTailMatch_false h]
    simp [ih (fun d hd => h d (List.mem_cons_of_mem _ hd))]

theorem parenStep_id {l : List Char} (h : AllAlnum l) : parenStep l = l := by
  unfold parenStep
  rw [parenScan_none h]
  rfl

theorem commaFixGo_id : ∀ (fuel : Nat) (l : List Char), (∀ c ∈ l, c ≠ ',') →
    commaFixGo fuel l = l := by
  intro fuel
  induction fuel with
  | zero => intro l _; rfl
  | succ n ih =>
    intro l h
    cases l with
    | nil => rfl
    | cons c t =>
      simp only [commaFixGo]
      have hcc : (c == ',') = false := by
        simp [h c (List.mem_cons_self _ _)]
      rw [hcc]
      simp [ih t (fun d hd => h d (List.mem_cons_of_mem _ hd))]

theorem commaStep_id {q : String} {l : List Char} (h : AllAlnum l) : commaStep q l = l := by
  unfold commaStep commaFix
  rw [commaFixGo_id _ _ (fun c hc hh => by
    subst hh
    exact absurd (h _ hc) (by decide))]
  split <;> rfl

theorem removeSyms_id {l : List Char} (h : AllAlnum l) : removeSyms l = l := by
  unfold removeSyms
  apply List.filter_eq_self.mpr
  intro c hc
  have hnm : c ∉ numSymbols := by
    intro hmem
    fin_cases hmem <;> exact absurd (h _ hc) (by decide)
  simpa using hnm

theorem numberStep_id {l : List Char} (h : AllAlnum l) : numberStep l = l := by
  simp only [numberStep]
  rw [removeSyms_id h, pyStripL_id h]
  split
  · split
    · split <;> rfl
    · rfl
  · rfl

theorem quoteStripStep_id {l : List Char} (h : AllAlnum l) : quoteStripStep l = l := by
  unfold quoteStripStep
  apply stripBy_eq_self
  intro c hc
  cases hq : isQuoteCh c with
  | false => rfl
  | true =>
    exfalso
    simp only [isQuoteCh, Bool.or_eq_true, decide_eq_true_eq] at hq
    rcases hq with rfl | rfl <;> exact absurd (h _ hc) (by decide)

theorem cleanAnswerL_id {l : List Char} {q : String} (h : AllAlnum l) :
    cleanAnswerL l q = l := by
  simp only [cleanAnswerL]
  rw [pyStripL_id h, fenceStep_id h, jsonStepData_id h]
  rw [prefixSteps_id h, sentencePick_id h, parenStep_id h, commaStep_id h,
    numberStep_id h, quoteStripStep_id h]

theorem cleanAnswer_id {s q : String} (h : AllAlnum s.data) : cleanAnswer s q = s := by
  unfold cleanAnswer
  rw [cleanAnswerL_id h]

theorem alookup_mem : ∀ (m : List (String × String)) (k v : String),
    alookup m k = some v → v ∈ m.map (·.2) := by
  intro m k v h
  unfold alookup at h
  cases hf : m.find? (fun kv => kv.1 = k) with
  | none => rw [hf] at h; cases h
  | some kv =>
    rw [hf] at h
    simp only [Option.map_some'] at h
    exact List.mem_map.mpr ⟨kv, List.mem_of_find?_eq_some hf, Option.some.inj h⟩

theorem vegStep_nodup {acc : List String} {raw : String} (h : acc.Nodup) :
    (vegStep acc raw).Nodup := by
  unfold vegStep
  dsimp only
  split
  · exact nodup_setInsert h
  · exact h

theorem vegStep_mem {acc : List String} {raw x : String} (hx : x ∈ vegStep acc raw) :
    x ∈ vegAllow ∨ x ∈ acc := by
  unfold vegStep at hx
  dsimp only at hx
  split at hx
  · rename_i v hv
    rcases mem_setInsert.mp hx with rfl | hx
    · exact Or.inl (alookup_mem _ _ _ hv)
    · exact Or.inr hx
  · exact Or.inr hx

theorem vegFold_nodup : ∀ (items acc : List String), acc.Nodup →
    (items.foldl vegStep acc).Nodup := by
  intro items
  induction items with
  | nil => intro acc h; exact h
  | cons i t ih => intro acc h; exact ih _ (vegStep_nodup h)

theorem vegFold_mem : ∀ (items acc : List String) (x : String),
    x ∈ items.foldl vegStep acc → x ∈ vegAllow ∨ x ∈ acc := by
  intro items
  induction items with
  | nil => intro acc x hx; exact Or.inr hx
  | cons i t ih =>
    intro acc x hx
    rcases ih _ x hx with h | h
    · exact Or.inl h
    · exact vegStep_mem h

theorem vegSet_nodup (txt : List Char) : (vegSet txt).Nodup :=
  vegFold_nodup _ _ List.nodup_nil

theorem vegSet_subset (txt : List Char) (x : String) (hx : x ∈ vegSet txt) :
    x ∈ vegAllow := by
  rcases vegFold_mem _ _ _ hx with h | h
  · exact h
  · cases h

theorem cacheAgentCall_hit {c : List (String × String)} {q a : String}
    {g : Except String (Option String)} (h : cacheLookup c q = some a) :
    cacheAgentCall c true g q = ⟨a, c, false, false⟩ := by
  unfold cacheAgentCall
  rw [h]
  simp

theorem cacheAgentCall_miss_ok {c : List (String × String)} {q raw : String}
    (h : cacheLookup c q = none) :
    cacheAgentCall c true (Except.ok (some raw)) q =
      ⟨ensureValidAnswer (cleanAnswer raw q),
       cacheStore c q (ensureValidAnswer (cleanAnswer raw q)), true, true⟩ := by
  unfold cacheAgentCall
  rw [h]
  simp

/-- C1: the spec claims the cleaner is idempotent for every string and
question. The code is not (see the counterexample `clean_idem_cex`): a
second pass can strip a further trailing parenthetical or boilerplate
prefix exposed by the first pass. Amended claim: the cleaner is idempotent
(indeed the identity) on answers consisting solely of ASCII alphanumeric
characters. -/
theorem clean_idem_amended (x q : String) (h : ∀ c ∈ x.data, c.isAlphanum = true) :
    cleanAnswer (cleanAnswer x q) q = cleanAnswer x q := by
  rw [cleanAnswer_id h, cleanAnswer_id h]

/-- Witness for `clean_idem_amended` at a concrete alphanumeric input. -/
theorem clean_idem_witness :
    cleanAnswer (cleanAnswer "x7" "any question") "any question" =
      cleanAnswer "x7" "any question" :=
  clean_idem_amended "x7" "any question" (by decide)

/-- Counterexample to C1 as stated: `clean "(a) (b)"` yields `"(a)"`, and a
second application strips the remaining parenthetical, yielding `""`. -/
theorem clean_idem_cex :
    cleanAnswer (cleanAnswer "(a) (b)" "q") "q" ≠ cleanAnswer "(a) (b)" "q" := by decide

/-- C2: the spec example `clean("$1,234.56", "total sales?") = "1234.56"`
fails on the code — the sentence-selection heuristic splits on `"."` and
keeps `"$1,234"` before numeric cleaning runs, so the decimal part is lost
(see `clean_numeric_cex`). Amended claim: that call returns `"1234"`;
`clean("12%", "what percent?")` returns `"12"` as claimed; and for a short
(at most five words) answer containing a digit the numeric-cleaning step
adopts the symbol-stripped string exactly when Python `float` accepts it. -/
theorem clean_numeric_amended :
    cleanAnswer "$1,234.56" "total sales?" = "1234" ∧
    cleanAnswer "12%" "what percent?" = "12" ∧
    ∀ a : List Char, wordCount a ≤ 5 → hasDigit a = true →
      (pyFloatOk (String.mk (pyStripL (removeSyms a))) = true →
        numberStep a = pyStripL (removeSyms a)) ∧
      (pyFloatOk (String.mk (pyStripL (removeSyms a))) = false →
        numberStep a = a) := by
  refine ⟨by decide, by decide, ?_⟩
  intro a hw hd
  constructor
  · intro hf
    simp [numberStep, hw, hd, hf]
  · intro hf
    simp [numberStep, hw, hd, hf]

/-- Witness for `clean_numeric_amended` applying the universally quantified
part at the concrete short numeric answer `"$5"`. -/
theorem clean_numeric_witness :
    numberStep "$5".data = "5".data :=
  (clean_numeric_amended.2.2 "$5".data (by decide) (by decide)).1 (by decide)

/-- Counterexample to C2 as stated: the claimed output `"1234.56"` is not
produced. -/
theorem clean_numeric_cex :
    cleanAnswer "$1,234.56" "total sales?" ≠ "1234.56" := by decide

/-- C9: whenever the cleaning pipeline produces the empty string, the
caching agent substitutes the fixed fallback literal
`"Unable to determine answer"` (via `ensure_valid_answer`), and the call
returns normally rather than surfacing an error. -/
theorem cleaner_degenerate_fallback (c : List (String × String)) (q raw : String)
    (hmiss : cacheLookup c q = none) (hempty : cleanAnswer raw q = "") :
    (cacheAgentCall c true (Except.ok (some raw)) q).answer =
      "Unable to determine answer" := by
  rw [cacheAgentCall_miss_ok hmiss]
  simp only [hempty]
  decide

/-- Witness for `cleaner_degenerate_fallback`: the empty raw answer cleans
to the empty string and the caller receives the fallback literal. -/
theorem cleaner_degenerate_witness :
    (cacheAgentCall [] true (Except.ok (some "")) "").answer =
      "Unable to determine answer" :=
  cleaner_degenerate_fallback [] "" "" rfl (by decide)

/-- C10: with caching enabled, a cached question is answered verbatim from
the cache without running the LLM graph or writing the cache; and once a
fresh question has been answered successfully, it is in the cache under its
validated answer and every subsequent call (whatever the graph would do)
replays that exact answer with no graph run and no cache write. -/
theorem cache_once_answered_replay :
    ∀ (c : List (String × String)) (q a raw : String)
      (g g2 : Except String (Option String)),
      (cacheLookup c q = some a → cacheAgentCall c true g q = ⟨a, c, false, false⟩) ∧
      (cacheLookup c q = none →
        cacheAgentCall c true (Except.ok (some raw)) q =
          ⟨ensureValidAnswer (cleanAnswer raw q),
           cacheStore c q (ensureValidAnswer (cleanAnswer raw q)), true, true⟩ ∧
        cacheLookup (cacheStore c q (ensureValidAnswer (cleanAnswer raw q))) q =
          some (ensureValidAnswer (cleanAnswer raw q)) ∧
        cacheAgentCall (cacheStore c q (ensureValidAnswer (cleanAnswer raw q))) true g2 q =
          ⟨ensureValidAnswer (cleanAnswer raw q),
           cacheStore c q (ensureValidAnswer (cleanAnswer raw q)), false, false⟩) := by
  intro c q a raw g g2
  constructor
  · exact fun h => cacheAgentCall_hit h
  · intro hmiss
    have hlook : cacheLookup (cacheStore c q (ensureValidAnswer (cleanAnswer raw q))) q =
        some (ensureValidAnswer (cleanAnswer raw q)) :=
      cacheLookup_store_fresh hmiss
    exact ⟨cacheAgentCall_miss_ok hmiss, hlook, cacheAgentCall_hit hlook⟩

set_option maxHeartbeats 1000000 in
/-- Witness for `cache_once_answered_replay`: concrete cache hits are
replayed verbatim, with no graph run and no cache write. -/
theorem cache_once_answered_witness :
    cacheAgentCall [("q1", "a1")] true (Except.error "graph down") "q1" =
      ⟨"a1", [("q1", "a1")], false, false⟩ ∧
    cacheAgentCall [("q2", "hello")] true (Except.error "later") "q2" =
      ⟨"hello", [("q2", "hello")], false, false⟩ := by
  constructor
  · exact (cache_once_answered_replay [("q1", "a1")] "q1" "a1" "x"
      (Except.error "graph down") (Except.ok none)).1 (by decide)
  · exact (cache_once_answered_replay [("q2", "hello")] "q2" "hello" "x"
      (Except.error "later") (Except.ok none)).1 (by decide)

/-- C4: the spec claims the core entry point never raises to its caller.
For the regex-router agent of `src/app.py` this fails: `__call__` has no
exception handling, so a resolver precondition failure propagates (see
`agent_raises_cex`); it is the batch runner `run_and_submit_all` that
converts it to an `"AGENT ERROR: <detail>"` string. The caching LLM agent
of `src/cache/agent/basic_agent.py` does catch internally and returns
`"Agent failed with error: <detail>"`. -/
theorem agent_error_boundary_amended :
    (∀ (aenv : AlbumEnv) (menv : MalkoEnv) (q e : String),
      appAgentCall aenv menv q = Except.error e →
      runOneApp aenv menv q = "AGENT ERROR: " ++ e) ∧
    (∀ (c : List (String × String)) (q e : String),
      cacheLookup c q = none →
      cacheAgentCall c true (Except.error e) q =
        ⟨ensureValidAnswer ("Agent failed with error: " ++ e), c, true, false⟩) := by
  constructor
  · intro aenv menv q e h
    unfold runOneApp
    rw [h]
  · intro c q e hmiss
    unfold cacheAgentCall
    rw [hmiss]
    simp

/-- Witness for `agent_error_boundary_amended` at concrete inputs. -/
theorem agent_error_boundary_witness :
    runOneApp ⟨none, Except.error "net down"⟩ ⟨none, []⟩
      "Produce the list of just the vegetables now" =
      "AGENT ERROR: Unable to locate the grocery list in the question." ∧
    cacheAgentCall [] true (Except.error "boom") "some question" =
      ⟨"Agent failed with error: boom", [], true, false⟩ := by
  constructor
  · exact agent_error_boundary_amended.1 ⟨none, Except.error "net down"⟩ ⟨none, []⟩ _ _
      (by decide)
  · exact (agent_error_boundary_amended.2 [] "some question" "boom" rfl).trans (by decide)

/-- Counterexample to C4 as stated: a question matching the vegetable
pattern but lacking the list marker makes the resolver raise, and the
exception escapes `BasicAgent.__call__` of `src/app.py` (modelled as
`Except.error`) instead of being caught inside the agent. -/
theorem agent_raises_cex :
    appAgentCall ⟨none, Except.error "offline"⟩ ⟨none, []⟩
      "Please give me a list of just the vegetables." =
      Except.error "Unable to locate the grocery list in the question." := by decide

/-- C3: the agent iterates its fixed ordered handler list: if no handler
matches, the call returns exactly the literal `"UNHANDLED"`; and whenever
handler `i` matches while all earlier handlers do not, the call returns
handler `i`'s answer — in particular, when two patterns both match, the
earlier-registered handler wins. -/
theorem router_first_match_spec :
    ∀ (aenv : AlbumEnv) (menv : MalkoEnv) (q : String),
      ((∀ h ∈ basicHandlers aenv menv, h.matchesQ q = false) →
        appAgentCall aenv menv q = Except.ok "UNHANDLED") ∧
      (∀ (i : Nat) (hi : i < (basicHandlers aenv menv).length),
        ((basicHandlers aenv menv).get ⟨i, hi⟩).matchesQ q = true →
        (∀ (j : Nat) (hj : j < i),
          ((basicHandlers aenv menv).get ⟨j, Nat.lt_trans hj hi⟩).matchesQ q = false) →
        appAgentCall aenv menv q = ((basicHandlers aenv menv).get ⟨i, hi⟩).answer q) := by
  intro aenv menv q
  exact ⟨dispatch_of_no_match _ q, fun i hi hm hb => dispatch_first_match _ q i hi hm hb⟩

set_option maxRecDepth 40000 in
set_option maxHeartbeats 1000000 in
/-- Witness for `router_first_match_spec`: a crafted question matching both
the vegetable handler (index 1) and the operation-table handler (index 2)
is answered by the earlier-registered vegetable handler, and an unmatched
question yields exactly `"UNHANDLED"`. -/
theorem router_first_match_witness :
    appAgentCall ⟨none, Except.error "net"⟩ ⟨none, []⟩ qRouterAdv =
      Except.error "Unable to locate the grocery list in the question." ∧
    appAgentCall ⟨none, Except.error "net"⟩ ⟨none, []⟩ "what is the capital of France?" =
      Except.ok "UNHANDLED" := by
  constructor
  · have hi : (1 : Nat) < (basicHandlers ⟨none, Except.error "net"⟩ ⟨none, []⟩).length := by
      decide
    have hm : ((basicHandlers ⟨none, Except.error "net"⟩ ⟨none, []⟩).get ⟨1, hi⟩).matchesQ
        qRouterAdv = true :=
      (by decide : vegMatches qRouterAdv = true)
    have hb : ∀ (j : Nat) (hj : j < 1),
        ((basicHandlers ⟨none, Except.error "net"⟩ ⟨none, []⟩).get
          ⟨j, Nat.lt_trans hj hi⟩).matchesQ qRouterAdv = false := by
      intro j hj
      have hj0 : j = 0 := by omega
      subst hj0
      exact (by decide : reverseMatches qRouterAdv = false)
    have h := (router_first_match_spec ⟨none, Except.error "net"⟩ ⟨none, []⟩ qRouterAdv).2
      1 hi hm hb
    exact h.trans
      (by decide :
        vegAnswer qRouterAdv = Except.error "Unable to locate the grocery list in the question.")
  · exact (router_first_match_spec ⟨none, Except.error "net"⟩ ⟨none, []⟩ _).1 (by decide)

/-- C5: the vegetable-list resolver fails with the no-list error when the
marker is absent; with the marker present it fails with the
no-vegetables error exactly when the filtered set is empty, and otherwise
returns the strictly sorted (hence deduplicated) allow-list members joined
by `", "`; on the spec example list text it returns
`"broccoli, fresh basil, lettuce, sweet potatoes"`. -/
theorem vegetable_list_spec :
    (∀ q : String, vegItemsSeg q = none →
      vegAnswer q = Except.error "Unable to locate the grocery list in the question.") ∧
    (∀ (q : String) (txt : List Char), vegItemsSeg q = some txt →
      (vegSet txt = [] →
        vegAnswer q = Except.error "No vegetables identified in the provided list.") ∧
      (vegSet txt ≠ [] →
        vegAnswer q = Except.ok (joinCommaSpace (sortStrs (vegSet txt)))) ∧
      (sortStrs (vegSet txt)).Pairwise (fun a b => strLtB a b = true) ∧
      (sortStrs (vegSet txt)).Nodup ∧
      (∀ x ∈ sortStrs (vegSet txt), x ∈ vegAllow)) ∧
    vegAnswer ("Could you make a list of just the vegetables? Here" ++ aposS ++
        "s the list I have so far: broccoli, Basil, lettuce, basil, sweet potatoes I need it") =
      Except.ok "broccoli, fresh basil, lettuce, sweet potatoes" := by
  refine ⟨?_, ?_, by decide⟩
  · intro q hq
    unfold vegAnswer
    rw [hq]
  · intro q txt hq
    refine ⟨?_, ?_, pairwise_lt_sortStrs (vegSet_nodup txt),
      nodup_sortStrs (vegSet_nodup txt),
      fun x hx => vegSet_subset txt x (mem_sortStrs.mp hx)⟩
    · intro hempty
      unfold vegAnswer
      rw [hq]
      simp [hempty]
    · intro hne
      unfold vegAnswer
      rw [hq]
      simp [hne]

set_option maxRecDepth 40000 in
set_option maxHeartbeats 1000000 in
/-- Witness for `vegetable_list_spec`: a question whose extracted list
holds one vegetable among non-vegetables resolves to that vegetable, and a
marker-less question fails with the no-list error. -/
theorem vegetable_list_witness :
    vegAnswer ("please give a list of just the vegetables; here" ++ aposS ++
        "s the list I have so far: celery, plutonium bars, celery") = Except.ok "celery" ∧
    vegAnswer "which vegetables are green?" =
      Except.error "Unable to locate the grocery list in the question." := by
  constructor
  · have h := ((vegetable_list_spec.2.1 ("please give a list of just the vegetables; here" ++
        aposS ++ "s the list I have so far: celery, plutonium bars, celery")
        " celery, plutonium bars, celery".data (by decide)).2.1 (by decide))
    exact h.trans (by decide)
  · exact vegetable_list_spec.1 _ (by decide)

/-- C6: on the fixed operation table the handler answers `"b, e"`, and the
sorted witness list contains exactly the elements of `S` taking part in
some non-commuting pair; a commutative table (empty witness set) raises the
taxonomy error instead of returning an empty string. Determinism is
immediate: the resolver is a pure function of the static table, pinned here
to a literal result. -/
theorem noncomm_witness_spec :
    nonCommAnswer opTable = Except.ok "b, e" ∧
    (∀ x ∈ sElems,
      (x ∈ sortStrs (nonCommWitnessSet opTable) ↔ ∃ y ∈ sElems, opTable x y ≠ opTable y x)) ∧
    (∀ x ∈ sortStrs (nonCommWitnessSet opTable), x ∈ sElems) ∧
    (∀ t : String → String → String, nonCommWitnessSet t = [] →
      nonCommAnswer t = Except.error "Operation appears commutative; no witnesses found.") := by
  refine ⟨by decide, by decide, by decide, ?_⟩
  intro t h
  simp [nonCommAnswer, h]

/-- Witness for `noncomm_witness_spec`: the constant (hence commutative)
table raises the taxonomy error. -/
theorem noncomm_commutative_witness :
    nonCommAnswer (fun _ _ => "z") =
      Except.error "Operation appears commutative; no witnesses found." :=
  noncomm_witness_spec.2.2.2 (fun _ _ => "z") (by decide)

/-- C7: whenever the cache file exists and its stripped content `isdigit()`,
`_get_album_count` returns that cached value with no network fetch and no
cache write, and the resolver renders it with `str(...)`. -/
theorem album_cache_authoritative :
    ∀ (env : AlbumEnv) (t : String), env.cacheText = some t →
      pyIsDigitStr (pyStripStr t) = true →
      albumGetCount env 2000 2009 =
        ⟨Except.ok (natOfDigits (pyStripStr t)), false, none⟩ ∧
      albumAnswer env = Except.ok (toString (natOfDigits (pyStripStr t))) := by
  intro env t hc hd
  have hrc : albumReadCache env = some (natOfDigits (pyStripStr t)) := by
    simp [albumReadCache, hc, hd]
  constructor
  · simp [albumGetCount, hrc]
  · simp [albumAnswer, albumGetCount, hrc]

/-- Witness for `album_cache_authoritative`: a cache file containing `"2"`
yields the answer `"2"` with the network untouched and nothing written,
even though the fetch environment would fail. -/
theorem album_cache_witness :
    albumGetCount ⟨some "2", Except.error "network down"⟩ 2000 2009 =
      ⟨Except.ok 2, false, none⟩ ∧
    albumAnswer ⟨some "2", Except.error "network down"⟩ = Except.ok "2" := by
  have h := album_cache_authoritative ⟨some "2", Except.error "network down"⟩ "2" rfl (by decide)
  exact ⟨h.1.trans (by decide), h.2.trans (by decide)⟩

/-- C8: with no cache and a failed scrape, the Malko resolver falls back to
the built-in record list and returns the first space-delimited token of the
name of the first record in document order whose year lies in 1978-2000 and
whose country substring-matches a defunct-country name - `"Claus"` for the
built-in data (from `"Claus Peter Flor"`, `"West Germany"`, 1980, the very
first fallback record). -/
theorem malko_fallback_first :
    ∀ env : MalkoEnv, env.cacheParse = none → env.scraped = [] →
      malkoLoadWinners env = malkoFallback ∧
      malkoAnswer env = Except.ok "Claus" ∧
      malkoFindTarget malkoFallback 1978 2000 =
        some ⟨"Claus", "Claus Peter Flor", "West Germany"⟩ ∧
      (malkoRecTarget [("year", "1980"), ("winner", "Claus Peter Flor"),
          ("country", "West Germany")] 1978 2000).isSome = true ∧
      "Claus" = String.mk ((splitWsL (pyStripStr "Claus Peter Flor").data).headD []) := by
  intro env h1 h2
  have hload : malkoLoadWinners env = malkoFallback := by
    simp [malkoLoadWinners, h1, h2]
  refine ⟨hload, ?_, by decide, by decide, by decide⟩
  unfold malkoAnswer
  rw [hload]
  decide

/-- Witness for `malko_fallback_first` at the concrete no-cache,
failed-scrape environment. -/
theorem malko_fallback_witness :
    malkoAnswer ⟨none, []⟩ = Except.ok "Claus" :=
  (malko_fallback_first ⟨none, []⟩ rfl rfl).2.1
